import Mathlib

/-!
Verification of the Duplicate-Request Coordinator of the CU-Boulder-RAG-Search
repository: a shallow embedding of `src/src/filters/dupefilter.py` (the Redis-,
SQLite- and file-based duplicate filters) and `src/src/filters/qdrant_dupefilter.py`
(the Qdrant-backed filter), together with theorems settling the specification
claims about them.

Modelling conventions:
- A Redis key `f"{key_prefix}:{fp}"` is modelled as the pair `(key_prefix, fp)`;
  the Redis keyspace is a finite set of such pairs (all keys map to the
  sentinel value "1", which carries no information).
- The SQLite table `seen_urls` is a finite set of fingerprint strings; the
  database file on disk is `Option SQLiteDB` (`none` = file does not exist).
- A Python `set` whose elements must later be enumerated (the file backend's
  `seen_fingerprints`) is modelled as a duplicate-free `List String`; the text
  file is `Option (List String)` holding the lines written (without the
  trailing newline each `write(f"{fp}\n")` appends).
- Python's `str.strip`, `sorted` and string comparison are modelled by the
  executable functions `pyStrip`, `pySort` and `charListLe` below.
- Infrastructure failures are made explicit: the SQLite insert takes a `busy`
  flag (a lock wait that exceeds the timeout raises `sqlite3.OperationalError`),
  and the Qdrant `scroll` call is passed in as an `Except` value (its result,
  or the exception it raised).
-/

/-- Python's `str.strip()` with no arguments: remove leading and trailing
whitespace characters. -/
def pyStrip (s : String) : String :=
  String.mk (((s.data.dropWhile Char.isWhitespace).reverse.dropWhile Char.isWhitespace).reverse)

/-- Lexicographic less-or-equal on strings as lists of characters, compared by
code point — the order Python's `sorted` uses on `str`. -/
def charListLe : List Char → List Char → Bool
  | [], _ => true
  | _ :: _, [] => false
  | a :: as, b :: bs =>
    if a.toNat < b.toNat then true
    else if b.toNat < a.toNat then false
    else charListLe as bs

/-- The string order induced by `charListLe`. -/
def strLe (a b : String) : Prop := charListLe a.data b.data = true

instance : DecidableRel strLe :=
  fun a b => inferInstanceAs (Decidable (charListLe a.data b.data = true))

theorem charListLe_cons_iff (a b : Char) (as bs : List Char) :
    charListLe (a :: as) (b :: bs) = true ↔
      a.toNat < b.toNat ∨ (a.toNat = b.toNat ∧ charListLe as bs = true) := by
  simp only [charListLe]
  split_ifs with h1 h2
  · simp [h1]
  · simp only [Bool.false_eq_true, false_iff]
    rintro (h | ⟨h, _⟩) <;> omega
  · have h : a.toNat = b.toNat := by omega
    simp [h]

theorem charListLe_total : ∀ as bs, charListLe as bs = true ∨ charListLe bs as = true
  | [], _ => Or.inl rfl
  | _ :: _, [] => Or.inr rfl
  | a :: as, b :: bs => by
    rw [charListLe_cons_iff, charListLe_cons_iff]
    rcases Nat.lt_trichotomy a.toNat b.toNat with h | h | h
    · exact Or.inl (Or.inl h)
    · rcases charListLe_total as bs with ih | ih
      · exact Or.inl (Or.inr ⟨h, ih⟩)
      · exact Or.inr (Or.inr ⟨h.symm, ih⟩)
    · exact Or.inr (Or.inl h)

theorem charListLe_trans :
    ∀ as bs cs, charListLe as bs = true → charListLe bs cs = true → charListLe as cs = true
  | [], _, _, _, _ => rfl
  | _ :: _, [], _, h1, _ => by simp [charListLe] at h1
  | _ :: _, _ :: _, [], _, h2 => by simp [charListLe] at h2
  | a :: as, b :: bs, c :: cs, h1, h2 => by
    rw [charListLe_cons_iff] at h1 h2 ⊢
    rcases h1 with h1 | ⟨e1, h1⟩
    · rcases h2 with h2 | ⟨e2, h2⟩
      · exact Or.inl (by omega)
      · exact Or.inl (by omega)
    · rcases h2 with h2 | ⟨e2, h2⟩
      · exact Or.inl (by omega)
      · exact Or.inr ⟨by omega, charListLe_trans as bs cs h1 h2⟩

instance : IsTotal String strLe := ⟨fun a b => charListLe_total a.data b.data⟩

instance : IsTrans String strLe :=
  ⟨fun a b c h1 h2 => charListLe_trans a.data b.data c.data h1 h2⟩

/-- Python's `sorted` on a list of strings. -/
def pySort (l : List String) : List String := List.insertionSort strLe l

instance {ε α : Type} [DecidableEq ε] [DecidableEq α] : DecidableEq (Except ε α) :=
  fun a b =>
    match a, b with
    | .error e1, .error e2 =>
      if h : e1 = e2 then isTrue (h ▸ rfl) else isFalse (fun c => h (Except.error.inj c))
    | .ok x, .ok y =>
      if h : x = y then isTrue (h ▸ rfl) else isFalse (fun c => h (Except.ok.inj c))
    | .error _, .ok _ => isFalse (fun c => Except.noConfusion c)
    | .ok _, .error _ => isFalse (fun c => Except.noConfusion c)

/-! ### RedisBasedDupeFilter (src/src/filters/dupefilter.py, lines 13-71) -/

/-- The Redis keyspace: the set of existing keys, a key `f"{kp}:{fp}"` being
modelled as the pair `(kp, fp)`. -/
abbrev RedisStore := Finset (String × String)

/-- Redis `SET key value NX`: set only if the key does not exist; the returned
Bool is truthy iff the key was actually set (the client returns `True` on set
and `None` when the key already existed). -/
def redisSetNX (store : RedisStore) (key : String × String) : Bool × RedisStore :=
  if key ∈ store then (false, store) else (true, insert key store)

/-- `RedisBasedDupeFilter.request_seen` (lines 48-60): `added = set(prefix:fp,
"1", nx=True); return not added`. `kp` is the filter's `key_prefix`. -/
def RedisBasedDupeFilter.request_seen (kp : String) (store : RedisStore) (fp : String) :
    Bool × RedisStore :=
  let r := redisSetNX store (kp, fp)
  (!r.1, r.2)

/-- `RedisBasedDupeFilter.open` (lines 39-41) only connects the client; the
shared keyspace is untouched. -/
def RedisBasedDupeFilter.openConn (store : RedisStore) : RedisStore := store

/-- `RedisBasedDupeFilter.close` (lines 43-46): `if self.redis_client:
self.redis_client.close()`. Closing the client (or skipping the close when the
client was never created) does not modify the shared keyspace. -/
def RedisBasedDupeFilter.close (client : Option Unit) (store : RedisStore) : RedisStore :=
  match client with
  | none => store
  | some _ => store

/-- `RedisBasedDupeFilter.clear` (lines 67-71): delete every key matching
`f"{kp}:*"`, i.e. every pair whose first component is `kp`. -/
def RedisBasedDupeFilter.clear (kp : String) (store : RedisStore) : RedisStore :=
  store.filter (fun k => ¬ k.1 = kp)

/-! ### SQLiteBasedDupeFilter (src/src/filters/dupefilter.py, lines 75-156) -/

/-- The `seen_urls` table: a set of fingerprints (the PRIMARY KEY column; the
timestamp column carries no information used by the filter). -/
structure SQLiteDB where
  seen_urls : Finset String
deriving DecidableEq

/-- The SQLite database file on disk; `none` means the file does not exist. -/
abbrev SQLiteFile := Option SQLiteDB

/-- The sqlite3 errors relevant to the filter: `IntegrityError` (primary-key
violation) and `OperationalError` (e.g. a lock wait exceeding the timeout). -/
inductive SqliteError
  | integrity
  | operational
deriving DecidableEq

/-- `INSERT INTO seen_urls (fingerprint) VALUES (?)` followed by `commit`:
raises `OperationalError` when the database is busy beyond the timeout,
`IntegrityError` when the primary key already exists, and otherwise inserts the
row. -/
def sqliteInsertSeen (busy : Bool) (db : SQLiteDB) (fp : String) :
    Except SqliteError SQLiteDB :=
  if busy then .error .operational
  else if fp ∈ db.seen_urls then .error .integrity
  else .ok ⟨insert fp db.seen_urls⟩

/-- `SQLiteBasedDupeFilter.request_seen` (lines 129-146): try the insert;
`except sqlite3.IntegrityError: return True`; a successful insert returns
`False`. Any other exception (e.g. `OperationalError`) is not caught and
propagates to the caller. -/
def SQLiteBasedDupeFilter.request_seen (busy : Bool) (db : SQLiteDB) (fp : String) :
    Except SqliteError (Bool × SQLiteDB) :=
  match sqliteInsertSeen busy db fp with
  | .ok db2 => .ok (false, db2)
  | .error .integrity => .ok (true, db)
  | .error .operational => .error .operational

/-- `SQLiteBasedDupeFilter.open` (lines 98-122): connect to the database file
and `CREATE TABLE IF NOT EXISTS seen_urls` — a fresh file gets an empty table,
an existing file keeps its rows. -/
def SQLiteBasedDupeFilter.openDB : SQLiteFile → SQLiteDB
  | none => ⟨∅⟩
  | some db => db

/-- `conn.commit()`: the connection's table state becomes the durable on-disk
state. -/
def SQLiteBasedDupeFilter.commit (db : SQLiteDB) : SQLiteFile := some db

/-- `SQLiteBasedDupeFilter.close` (lines 124-127): `if self.conn:
self.conn.close()`. Closing the connection (or skipping the close when no
connection exists) leaves the database file as last committed. -/
def SQLiteBasedDupeFilter.close (conn : Option SQLiteDB) (disk : SQLiteFile) : SQLiteFile :=
  match conn with
  | none => disk
  | some _ => disk

/-- `SQLiteBasedDupeFilter.clear` (lines 153-156): `DELETE FROM seen_urls`. -/
def SQLiteBasedDupeFilter.clear (db : SQLiteDB) : SQLiteDB := ⟨∅⟩

/-! ### FileBasedDupeFilter (src/src/filters/dupefilter.py, lines 159-224) -/

/-- The file-based filter's state: the in-memory `seen_fingerprints` set
(modelled as a duplicate-free list, since `close` must enumerate it) together
with the text file (`none` = file does not exist; otherwise the list of lines,
each line stored without its trailing newline). -/
structure FileFilterState where
  seen_fingerprints : List String
  file : Option (List String)
deriving DecidableEq

/-- `FileBasedDupeFilter.__init__` (lines 168-171): `seen_fingerprints = set()`,
against whatever file currently exists at `file_path`. -/
def FileBasedDupeFilter.init (f : Option (List String)) : FileFilterState := ⟨[], f⟩

/-- `FileBasedDupeFilter.open` (lines 183-189): if the file exists,
`self.seen_fingerprints = set(line.strip() for line in f)`; otherwise the
in-memory set is left as is. -/
def FileBasedDupeFilter.openFilter (st : FileFilterState) : FileFilterState :=
  match st.file with
  | none => st
  | some lines => { st with seen_fingerprints := (lines.map pyStrip).dedup }

/-- `FileBasedDupeFilter.request_seen` (lines 197-213): if the fingerprint is
in the in-memory set return `True`; otherwise add it to the set, append it as a
new line to the file (mode "a" creates the file when absent), and return
`False`. -/
def FileBasedDupeFilter.request_seen (st : FileFilterState) (fp : String) :
    Bool × FileFilterState :=
  if fp ∈ st.seen_fingerprints then (true, st)
  else (false, { seen_fingerprints := st.seen_fingerprints ++ [fp],
                 file := some (st.file.getD [] ++ [fp]) })

/-- `FileBasedDupeFilter.close` (lines 191-195): open the file in mode "w"
(truncating whatever it held) and write every in-memory fingerprint, sorted,
one per line. -/
def FileBasedDupeFilter.close (st : FileFilterState) : FileFilterState :=
  { st with file := some (pySort st.seen_fingerprints) }

/-- `FileBasedDupeFilter.clear` (lines 220-224): empty the in-memory set and
unlink the file. -/
def FileBasedDupeFilter.clear (st : FileFilterState) : FileFilterState := ⟨[], none⟩

/-! ### QdrantDupeFilter (src/src/filters/qdrant_dupefilter.py) -/

/-- An exception raised by the Qdrant client (connection refused, timeout, ...);
the filter treats every exception alike. -/
inductive QdrantErr
  | err
deriving DecidableEq

/-- `QdrantDupeFilter.request_seen` (lines 28-67). `scroll` is the outcome of
the `self.client.scroll` lookup: `.ok b` when the call returned and `b` says
whether a point with this URL exists, `.error e` when it raised. The session
cache `fingerprints` is a set of URLs. The except-branch (lines 59-63) logs a
warning and returns `False` without touching the session set. -/
def QdrantDupeFilter.request_seen (scroll : Except QdrantErr Bool)
    (fingerprints : Finset String) (url : String) : Bool × Finset String :=
  if url ∈ fingerprints then (true, fingerprints)
  else
    match scroll with
    | .error _ => (false, fingerprints)
    | .ok true => (true, insert url fingerprints)
    | .ok false => (false, insert url fingerprints)

/-- `QdrantDupeFilter.close` (lines 69-71): `self.fingerprints.clear()`. -/
def QdrantDupeFilter.close (fingerprints : Finset String) : Finset String := ∅

/-! ### Fingerprint function -/

/-- A crawl request as the fingerprint function sees it: the identity fields
(method, URL — taken here already in canonical form — and body) plus headers,
which the default scrapy fingerprinter ignores. -/
structure Request where
  method : String
  url : String
  body : String
  headers : List (String × String)

/-- The identity fields the configured fingerprinter hashes, serialized. -/
def canonicalIdentity (r : Request) : String :=
  r.method ++ "|" ++ r.url ++ "|" ++ r.body

/-- Modelled from the spec: `scrapy.utils.request.fingerprint` (library code,
not part of src/) is a deterministic cryptographic digest — SHA1, 20 bytes — of
the request's identity fields. The stand-in digest below is a deterministic
20-byte function of the serialized identity; byte `i` folds the characters into
an accumulator mod 256. -/
def digestByte (s : List Char) (i : Nat) : Nat :=
  s.foldl (fun a c => (a * 131 + c.toNat + 7) % 256) ((i * 37 + 11) % 256)

/-- Modelled from the spec: the 20-byte fingerprint of a request. -/
def fingerprintBytes (r : Request) : List Nat :=
  (List.range 20).map (digestByte (canonicalIdentity r).data)

/-- One hex digit, lower case, as Python's `bytes.hex` renders it. -/
def hexDigit (n : Nat) : Char :=
  if n < 10 then Char.ofNat (48 + n) else Char.ofNat (87 + n)

/-- Python's `bytes.hex()`: two lower-case hex digits per byte. -/
def bytesHex (bs : List Nat) : String :=
  String.mk (bs.flatMap (fun b => [hexDigit (b / 16), hexDigit (b % 16)]))

/-- `_get_request_fingerprint` (identical in all three filter classes, e.g.
lines 62-65): `fingerprint(request).hex()`. -/
def get_request_fingerprint (r : Request) : String :=
  bytesHex (fingerprintBytes r)

/-! ### Iterated claims (for the at-most-one-claim property) -/

/-- Run `n` ClaimOrSeen calls for one fingerprint, one after the other, against
a shared store — the sequential interleaving any set of `n` concurrent calls
linearizes to, each call being a single atomic store primitive. Returns the
list of results in arrival order. -/
def claimsRepeat {σ : Type} (f : σ → Bool × σ) : Nat → σ → List Bool
  | 0, _ => []
  | n + 1, s => (f s).1 :: claimsRepeat f n (f s).2

/-- As `claimsRepeat`, for a fallible ClaimOrSeen. -/
def claimsRepeatE {σ ε : Type} (f : σ → Except ε (Bool × σ)) :
    Nat → σ → Except ε (List Bool)
  | 0, _ => .ok []
  | n + 1, s =>
    match f s with
    | .error e => .error e
    | .ok (b, s2) => (claimsRepeatE f n s2).map (fun bs => b :: bs)

/-! ### Operation sequences (for the monotonicity property) -/

/-- A session operation: `opn` (the lifecycle open) or `claim fp` (a
ClaimOrSeen call for fingerprint `fp`). `Clear` is deliberately excluded. -/
inductive DFOp
  | opn
  | claim (fp : String)

/-- One step of the Redis filter: open only reconnects; a claim runs
`request_seen` and keeps the resulting keyspace. -/
def redisStep (kp : String) (store : RedisStore) : DFOp → RedisStore
  | .opn => RedisBasedDupeFilter.openConn store
  | .claim fp => (RedisBasedDupeFilter.request_seen kp store fp).2

def redisRun (kp : String) (store : RedisStore) (ops : List DFOp) : RedisStore :=
  ops.foldl (redisStep kp) store

/-- One step of the SQLite filter: open re-reads the committed file (CREATE
TABLE IF NOT EXISTS preserves existing rows); a claim runs `request_seen` with
the database not busy. The error fallback is unreachable when busy is false. -/
def sqliteStep (db : SQLiteDB) : DFOp → SQLiteDB
  | .opn => SQLiteBasedDupeFilter.openDB (SQLiteBasedDupeFilter.close (some db)
      (SQLiteBasedDupeFilter.commit db))
  | .claim fp =>
    match SQLiteBasedDupeFilter.request_seen false db fp with
    | .ok (_, db2) => db2
    | .error _ => db

def sqliteRun (db : SQLiteDB) (ops : List DFOp) : SQLiteDB :=
  ops.foldl sqliteStep db

/-- One step of the file filter. -/
def fileStep (st : FileFilterState) : DFOp → FileFilterState
  | .opn => FileBasedDupeFilter.openFilter st
  | .claim fp => (FileBasedDupeFilter.request_seen st fp).2

def fileRun (st : FileFilterState) (ops : List DFOp) : FileFilterState :=
  ops.foldl fileStep st

/-- The file-backend representation invariant: every line on disk is
strip-invariant (true of the hex fingerprints the filter writes), and every
in-memory fingerprint is also on disk (request_seen appends each new
fingerprint immediately). -/
def fileInv (st : FileFilterState) : Prop :=
  (∀ l ∈ st.file.getD [], pyStrip l = l) ∧
  ∀ x ∈ st.seen_fingerprints, x ∈ st.file.getD []

/-- An operation whose fingerprint, if any, is strip-invariant (hex strings
contain no whitespace). -/
def opStripped : DFOp → Prop
  | .opn => True
  | .claim fp => pyStrip fp = fp

instance : DecidablePred opStripped := fun op =>
  match op with
  | .opn => .isTrue trivial
  | .claim fp => inferInstanceAs (Decidable (pyStrip fp = fp))

instance (st : FileFilterState) : Decidable (fileInv st) :=
  inferInstanceAs (Decidable ((∀ l ∈ st.file.getD [], pyStrip l = l) ∧
    ∀ x ∈ st.seen_fingerprints, x ∈ st.file.getD []))

/-! ### Claim theorems -/

/-- C1: for each of the three backends, `request_seen fp` against store state S
returns `false` and stores fp (post-state S with fp added) when fp is absent,
and returns `true` leaving the store unchanged when fp is present. For the
file backend the post-state also records the appended line. -/
theorem claim_or_seen_contract (kp fp : String) (store : RedisStore) (db : SQLiteDB)
    (st : FileFilterState) :
    (((kp, fp) ∉ store →
        RedisBasedDupeFilter.request_seen kp store fp = (false, insert (kp, fp) store)) ∧
      ((kp, fp) ∈ store →
        RedisBasedDupeFilter.request_seen kp store fp = (true, store))) ∧
    ((fp ∉ db.seen_urls →
        SQLiteBasedDupeFilter.request_seen false db fp = .ok (false, ⟨insert fp db.seen_urls⟩)) ∧
      (fp ∈ db.seen_urls →
        SQLiteBasedDupeFilter.request_seen false db fp = .ok (true, db))) ∧
    ((fp ∉ st.seen_fingerprints →
        FileBasedDupeFilter.request_seen st fp =
          (false, ⟨st.seen_fingerprints ++ [fp], some (st.file.getD [] ++ [fp])⟩)) ∧
      (fp ∈ st.seen_fingerprints →
        FileBasedDupeFilter.request_seen st fp = (true, st))) := by
  refine ⟨⟨?_, ?_⟩, ⟨?_, ?_⟩, ⟨?_, ?_⟩⟩ <;> intro h <;>
    simp [RedisBasedDupeFilter.request_seen, redisSetNX, SQLiteBasedDupeFilter.request_seen,
      sqliteInsertSeen, FileBasedDupeFilter.request_seen, h]

/-- Witness for C1: concrete evaluations of both branches. -/
theorem claim_or_seen_contract_witness :
    ("p", "a") ∉ (∅ : RedisStore) ∧
    RedisBasedDupeFilter.request_seen "p" ∅ "a" = (false, insert ("p", "a") ∅) ∧
    SQLiteBasedDupeFilter.request_seen false ⟨∅⟩ "a" = .ok (false, ⟨insert "a" ∅⟩) ∧
    FileBasedDupeFilter.request_seen ⟨[], none⟩ "a"
      = (false, ⟨[] ++ ["a"], some (Option.getD none [] ++ ["a"])⟩) ∧
    RedisBasedDupeFilter.request_seen "p" {("p", "a")} "a" = (true, {("p", "a")}) :=
  ⟨by decide,
    (claim_or_seen_contract "p" "a" ∅ ⟨∅⟩ ⟨[], none⟩).1.1 (by decide),
    (claim_or_seen_contract "p" "a" ∅ ⟨∅⟩ ⟨[], none⟩).2.1.1 (by decide),
    (claim_or_seen_contract "p" "a" ∅ ⟨∅⟩ ⟨[], none⟩).2.2.1 (by decide),
    (claim_or_seen_contract "p" "a" {("p", "a")} ⟨∅⟩ ⟨[], none⟩).1.2 (by decide)⟩

/-- C7: after Clear, a previously claimed fingerprint is granted again (the
next `request_seen` returns false) on each backend. -/
theorem clear_resets_state (kp fp : String) (store : RedisStore) (db : SQLiteDB)
    (st : FileFilterState) :
    (RedisBasedDupeFilter.request_seen kp
        (RedisBasedDupeFilter.clear kp (RedisBasedDupeFilter.request_seen kp store fp).2) fp).1
      = false ∧
    SQLiteBasedDupeFilter.request_seen false (SQLiteBasedDupeFilter.clear db) fp
      = .ok (false, ⟨insert fp ∅⟩) ∧
    (FileBasedDupeFilter.request_seen (FileBasedDupeFilter.clear st) fp).1 = false := by
  refine ⟨?_, ?_, ?_⟩
  · have key : ∀ s : RedisStore, (kp, fp) ∉ s →
        (RedisBasedDupeFilter.request_seen kp s fp).1 = false := by
      intro s hs
      simp [RedisBasedDupeFilter.request_seen, redisSetNX, hs]
    exact key _ (by simp [RedisBasedDupeFilter.clear])
  · simp [SQLiteBasedDupeFilter.request_seen, sqliteInsertSeen, SQLiteBasedDupeFilter.clear]
  · simp [FileBasedDupeFilter.request_seen, FileBasedDupeFilter.clear]

/-- C10: when the Qdrant lookup raises and the URL is not in the session set,
`request_seen` returns false with the session set unchanged; no error value
escapes (the function is total on the error case by construction). -/
theorem qdrant_error_allows (e : QdrantErr) (fingerprints : Finset String) (url : String)
    (h : url ∉ fingerprints) :
    QdrantDupeFilter.request_seen (.error e) fingerprints url = (false, fingerprints) := by
  simp [QdrantDupeFilter.request_seen, h]

/-- Witness for C10. -/
theorem qdrant_error_allows_witness :
    "https://example.edu/a" ∉ (∅ : Finset String) ∧
    QdrantDupeFilter.request_seen (.error .err) ∅ "https://example.edu/a" = (false, ∅) :=
  ⟨by decide, qdrant_error_allows .err ∅ "https://example.edu/a" (by decide)⟩

/-- C4 counterexample: the Qdrant filter maps an infrastructure failure of the
lookup to the boolean result `false` (URL treated as novel) instead of
propagating a distinct error, refuting the claim for this backend. -/
theorem qdrant_swallows_error_counterexample :
    QdrantDupeFilter.request_seen (.error .err) (∅ : Finset String) "https://example.edu/x"
      = (false, ∅) := by decide

/-- C4 amended: the SQLite backend propagates infrastructure failures (a lock
wait beyond the timeout raises OperationalError, which `request_seen` does not
catch) as distinct errors, never as a boolean; the Qdrant filter instead
catches lookup failures and returns false. -/
theorem infra_error_distinct_amended :
    (∀ (db : SQLiteDB) (fp : String),
        SQLiteBasedDupeFilter.request_seen true db fp = .error .operational) ∧
    (∀ url : String,
        QdrantDupeFilter.request_seen (.error .err) (∅ : Finset String) url = (false, ∅)) := by
  constructor
  · intro db fp
    simp [SQLiteBasedDupeFilter.request_seen, sqliteInsertSeen]
  · intro url
    simp [QdrantDupeFilter.request_seen]

/-- C5 counterexample: closing a freshly constructed file-based filter whose
Open never ran rewrites the file from the empty in-memory set, destroying the
stored fingerprints (here the file held the fingerprint "ab12"). -/
theorem file_close_unopened_truncates_counterexample :
    (FileBasedDupeFilter.close (FileBasedDupeFilter.init (some ["ab12"]))).file
      ≠ some ["ab12"] := by decide

/-- C5 amended: Close on a never-opened Redis or SQLite filter is a no-op on
the stored fingerprints and cannot fail (the close call is guarded by a check
that the handle exists); the file backend's Close also cannot fail, but it
always rewrites the file from the in-memory set, so on a fresh instance it
replaces the stored fingerprints with an empty file. -/
theorem close_safe_amended :
    (∀ store : RedisStore, RedisBasedDupeFilter.close none store = store) ∧
    (∀ disk : SQLiteFile, SQLiteBasedDupeFilter.close none disk = disk) ∧
    (∀ f : Option (List String),
        (FileBasedDupeFilter.close (FileBasedDupeFilter.init f)).file = some [] ∧
        (FileBasedDupeFilter.close (FileBasedDupeFilter.init f)).seen_fingerprints = []) :=
  ⟨fun _ => rfl, fun _ => rfl, fun _ => ⟨rfl, rfl⟩⟩

/-- C6: Close rewrites the file to exactly the in-memory seen-set, sorted (in
the code-point order Python's `sorted` uses) and without duplicate lines,
regardless of what the file held before. -/
theorem file_close_compaction (st : FileFilterState) :
    (FileBasedDupeFilter.close st).file = some (pySort st.seen_fingerprints) ∧
    (FileBasedDupeFilter.close st).seen_fingerprints = st.seen_fingerprints ∧
    List.Sorted strLe (pySort st.seen_fingerprints) ∧
    (∀ x, x ∈ pySort st.seen_fingerprints ↔ x ∈ st.seen_fingerprints) ∧
    (st.seen_fingerprints.Nodup → (pySort st.seen_fingerprints).Nodup) ∧
    (∀ f2, (FileBasedDupeFilter.close { st with file := f2 }).file
        = (FileBasedDupeFilter.close st).file) :=
  ⟨rfl, rfl, List.sorted_insertionSort strLe st.seen_fingerprints,
    fun _ => (List.perm_insertionSort strLe st.seen_fingerprints).mem_iff,
    fun h => (List.perm_insertionSort strLe st.seen_fingerprints).nodup_iff.mpr h,
    fun _ => rfl⟩

/-- Witness for C6: a concrete state with an unsorted in-memory set and a file
holding duplicate lines. -/
theorem file_close_compaction_witness :
    (["b", "a"] : List String).Nodup ∧ (pySort ["b", "a"]).Nodup :=
  ⟨by decide, (file_close_compaction ⟨["b", "a"], some ["x", "x"]⟩).2.2.2.2.1 (by decide)⟩

theorem claimsRepeat_redis_replicate (kp fp : String) (store : RedisStore)
    (h : (kp, fp) ∈ store) :
    ∀ n, claimsRepeat (fun s => RedisBasedDupeFilter.request_seen kp s fp) n store
      = List.replicate n true
  | 0 => rfl
  | n + 1 => by
    have e : RedisBasedDupeFilter.request_seen kp store fp = (true, store) := by
      simp [RedisBasedDupeFilter.request_seen, redisSetNX, h]
    simp only [claimsRepeat, e, List.replicate_succ]
    exact congrArg (List.cons true) (claimsRepeat_redis_replicate kp fp store h n)

theorem claimsRepeatE_sqlite_replicate (fp : String) (db : SQLiteDB)
    (h : fp ∈ db.seen_urls) :
    ∀ n, claimsRepeatE (fun d => SQLiteBasedDupeFilter.request_seen false d fp) n db
      = .ok (List.replicate n true)
  | 0 => rfl
  | n + 1 => by
    have e : SQLiteBasedDupeFilter.request_seen false db fp = .ok (true, db) := by
      simp [SQLiteBasedDupeFilter.request_seen, sqliteInsertSeen, h]
    simp only [claimsRepeatE, e]
    rw [claimsRepeatE_sqlite_replicate fp db h n]
    rfl

/-- C2: any set of N concurrent ClaimOrSeen calls for one fingerprint against a
shared Redis or SQLite store — each call a single atomic store primitive, so
any concurrent execution linearizes to the N sequential calls modelled here —
yields exactly one false (the first, the claim) and N-1 true results. -/
theorem at_most_one_claim (kp fp : String) (store : RedisStore) (db : SQLiteDB) (n : Nat)
    (hr : (kp, fp) ∉ store) (hs : fp ∉ db.seen_urls) (hn : 1 ≤ n) :
    claimsRepeat (fun s => RedisBasedDupeFilter.request_seen kp s fp) n store
      = false :: List.replicate (n - 1) true ∧
    claimsRepeatE (fun d => SQLiteBasedDupeFilter.request_seen false d fp) n db
      = .ok (false :: List.replicate (n - 1) true) ∧
    (false :: List.replicate (n - 1) true).count false = 1 ∧
    (false :: List.replicate (n - 1) true).count true = n - 1 := by
  obtain ⟨m, rfl⟩ : ∃ m, n = m + 1 := ⟨n - 1, (Nat.succ_pred_eq_of_pos hn).symm⟩
  refine ⟨?_, ?_, ?_, ?_⟩
  · have e : RedisBasedDupeFilter.request_seen kp store fp
        = (false, insert (kp, fp) store) := by
      simp [RedisBasedDupeFilter.request_seen, redisSetNX, hr]
    simp only [claimsRepeat, e, Nat.add_sub_cancel]
    exact congrArg (List.cons false)
      (claimsRepeat_redis_replicate kp fp (insert (kp, fp) store)
        (Finset.mem_insert_self _ _) m)
  · have e : SQLiteBasedDupeFilter.request_seen false db fp
        = .ok (false, ⟨insert fp db.seen_urls⟩) := by
      simp [SQLiteBasedDupeFilter.request_seen, sqliteInsertSeen, hs]
    simp only [claimsRepeatE, e, Nat.add_sub_cancel]
    rw [claimsRepeatE_sqlite_replicate fp ⟨insert fp db.seen_urls⟩
      (Finset.mem_insert_self _ _) m]
    rfl
  · simp [List.count_cons, List.count_replicate]
  · simp [List.count_cons, List.count_replicate]

/-- Witness for C2, at N = 3. -/
theorem at_most_one_claim_witness :
    ("p", "a") ∉ (∅ : RedisStore) ∧
    (claimsRepeat (fun s => RedisBasedDupeFilter.request_seen "p" s "a") 3 ∅
        = false :: List.replicate (3 - 1) true ∧
      claimsRepeatE (fun d => SQLiteBasedDupeFilter.request_seen false d "a") 3 ⟨∅⟩
        = .ok (false :: List.replicate (3 - 1) true) ∧
      (false :: List.replicate (3 - 1) true).count false = 1 ∧
      (false :: List.replicate (3 - 1) true).count true = 3 - 1) :=
  ⟨by decide, at_most_one_claim "p" "a" ∅ ⟨∅⟩ 3 (by decide) (by decide) (by decide)⟩

/-- C3: claiming a fingerprint, closing the Coordinator, and reopening a fresh
instance against the same backend configuration makes the next ClaimOrSeen for
that fingerprint return true, for all three backends (for the file backend the
reopened instance reads the file the close compacted; hex fingerprints are
strip-invariant). -/
theorem persistence_across_restart (kp fp : String) (store : RedisStore)
    (disk : SQLiteFile) (f : Option (List String)) :
    ((kp, fp) ∉ store →
      (RedisBasedDupeFilter.request_seen kp store fp).1 = false ∧
      (RedisBasedDupeFilter.request_seen kp
          (RedisBasedDupeFilter.openConn (RedisBasedDupeFilter.close (some ())
            (RedisBasedDupeFilter.request_seen kp store fp).2)) fp).1 = true) ∧
    (fp ∉ (SQLiteBasedDupeFilter.openDB disk).seen_urls →
      SQLiteBasedDupeFilter.request_seen false (SQLiteBasedDupeFilter.openDB disk) fp
        = .ok (false, ⟨insert fp (SQLiteBasedDupeFilter.openDB disk).seen_urls⟩) ∧
      SQLiteBasedDupeFilter.request_seen false
          (SQLiteBasedDupeFilter.openDB (SQLiteBasedDupeFilter.close
            (some ⟨insert fp (SQLiteBasedDupeFilter.openDB disk).seen_urls⟩)
            (SQLiteBasedDupeFilter.commit
              ⟨insert fp (SQLiteBasedDupeFilter.openDB disk).seen_urls⟩))) fp
        = .ok (true, ⟨insert fp (SQLiteBasedDupeFilter.openDB disk).seen_urls⟩)) ∧
    (pyStrip fp = fp →
      fp ∉ (FileBasedDupeFilter.openFilter (FileBasedDupeFilter.init f)).seen_fingerprints →
      (FileBasedDupeFilter.request_seen
          (FileBasedDupeFilter.openFilter (FileBasedDupeFilter.init f)) fp).1 = false ∧
      (FileBasedDupeFilter.request_seen
          (FileBasedDupeFilter.openFilter (FileBasedDupeFilter.init
            (FileBasedDupeFilter.close
              ((FileBasedDupeFilter.request_seen
                (FileBasedDupeFilter.openFilter (FileBasedDupeFilter.init f)) fp).2)).file)) fp).1
        = true) := by
  refine ⟨fun h => ⟨?_, ?_⟩, fun h => ⟨?_, ?_⟩, fun hstrip h => ⟨?_, ?_⟩⟩
  · simp [RedisBasedDupeFilter.request_seen, redisSetNX, h]
  · have key : ∀ s : RedisStore, (kp, fp) ∈ s →
        (RedisBasedDupeFilter.request_seen kp s fp).1 = true := by
      intro s hs
      simp [RedisBasedDupeFilter.request_seen, redisSetNX, hs]
    apply key
    simp [RedisBasedDupeFilter.openConn, RedisBasedDupeFilter.close,
      RedisBasedDupeFilter.request_seen, redisSetNX, h]
  · simp [SQLiteBasedDupeFilter.request_seen, sqliteInsertSeen, h]
  · simp [SQLiteBasedDupeFilter.request_seen, sqliteInsertSeen,
      SQLiteBasedDupeFilter.openDB, SQLiteBasedDupeFilter.close,
      SQLiteBasedDupeFilter.commit]
  · simp [FileBasedDupeFilter.request_seen, h]
  · have e1 : FileBasedDupeFilter.request_seen
        (FileBasedDupeFilter.openFilter (FileBasedDupeFilter.init f)) fp
        = (false,
          ⟨(FileBasedDupeFilter.openFilter (FileBasedDupeFilter.init f)).seen_fingerprints
              ++ [fp],
            some ((FileBasedDupeFilter.openFilter
              (FileBasedDupeFilter.init f)).file.getD [] ++ [fp])⟩) := by
      simp [FileBasedDupeFilter.request_seen, h]
    rw [e1]
    have key : ∀ st2 : FileFilterState, fp ∈ st2.seen_fingerprints →
        (FileBasedDupeFilter.request_seen st2 fp).1 = true := by
      intro st2 hm2
      simp [FileBasedDupeFilter.request_seen, hm2]
    apply key
    simp only [FileBasedDupeFilter.close, FileBasedDupeFilter.init,
      FileBasedDupeFilter.openFilter]
    apply List.mem_dedup.mpr
    apply List.mem_map.mpr
    refine ⟨fp, ?_, hstrip⟩
    exact (List.perm_insertionSort strLe _).mem_iff.mpr
      (List.mem_append_right _ (List.mem_singleton.mpr rfl))

/-- Witness for C3. -/
theorem persistence_across_restart_witness :
    (("p", "a") ∉ (∅ : RedisStore)) ∧
    ("a" ∉ (SQLiteBasedDupeFilter.openDB none).seen_urls) ∧
    (pyStrip "a" = "a") ∧
    ("a" ∉ (FileBasedDupeFilter.openFilter
        (FileBasedDupeFilter.init none)).seen_fingerprints) ∧
    ((RedisBasedDupeFilter.request_seen "p" ∅ "a").1 = false ∧
      (RedisBasedDupeFilter.request_seen "p"
          (RedisBasedDupeFilter.openConn (RedisBasedDupeFilter.close (some ())
            (RedisBasedDupeFilter.request_seen "p" ∅ "a").2)) "a").1 = true) ∧
    (SQLiteBasedDupeFilter.request_seen false (SQLiteBasedDupeFilter.openDB none) "a"
        = .ok (false, ⟨insert "a" (SQLiteBasedDupeFilter.openDB none).seen_urls⟩) ∧
      SQLiteBasedDupeFilter.request_seen false
          (SQLiteBasedDupeFilter.openDB (SQLiteBasedDupeFilter.close
            (some ⟨insert "a" (SQLiteBasedDupeFilter.openDB none).seen_urls⟩)
            (SQLiteBasedDupeFilter.commit
              ⟨insert "a" (SQLiteBasedDupeFilter.openDB none).seen_urls⟩))) "a"
        = .ok (true, ⟨insert "a" (SQLiteBasedDupeFilter.openDB none).seen_urls⟩)) ∧
    ((FileBasedDupeFilter.request_seen
        (FileBasedDupeFilter.openFilter (FileBasedDupeFilter.init none)) "a").1 = false ∧
      (FileBasedDupeFilter.request_seen
          (FileBasedDupeFilter.openFilter (FileBasedDupeFilter.init
            (FileBasedDupeFilter.close
              ((FileBasedDupeFilter.request_seen
                (FileBasedDupeFilter.openFilter
                  (FileBasedDupeFilter.init none)) "a").2)).file)) "a").1 = true) :=
  ⟨by decide, by decide, by decide, by decide,
    (persistence_across_restart "p" "a" ∅ none none).1 (by decide),
    (persistence_across_restart "p" "a" ∅ none none).2.1 (by decide),
    (persistence_across_restart "p" "a" ∅ none none).2.2 (by decide) (by decide)⟩

theorem redisStep_mem (kp F : String) (store : RedisStore) (op : DFOp)
    (h : (kp, F) ∈ store) : (kp, F) ∈ redisStep kp store op := by
  cases op with
  | opn => exact h
  | claim fp =>
    by_cases hm : (kp, fp) ∈ store
    · simpa [redisStep, RedisBasedDupeFilter.request_seen, redisSetNX, hm] using h
    · simp only [redisStep, RedisBasedDupeFilter.request_seen, redisSetNX, if_neg hm]
      exact Finset.mem_insert_of_mem h

theorem redisRun_mem (kp F : String) (store : RedisStore) (ops : List DFOp)
    (h : (kp, F) ∈ store) : (kp, F) ∈ redisRun kp store ops := by
  induction ops generalizing store with
  | nil => exact h
  | cons op ops ih =>
    simp only [redisRun, List.foldl_cons]
    exact ih (redisStep kp store op) (redisStep_mem kp F store op h)

theorem sqliteStep_mem (F : String) (db : SQLiteDB) (op : DFOp)
    (h : F ∈ db.seen_urls) : F ∈ (sqliteStep db op).seen_urls := by
  cases op with
  | opn => exact h
  | claim fp =>
    by_cases hm : fp ∈ db.seen_urls
    · simpa [sqliteStep, SQLiteBasedDupeFilter.request_seen, sqliteInsertSeen, hm] using h
    · simp only [sqliteStep, SQLiteBasedDupeFilter.request_seen, sqliteInsertSeen,
        if_neg (Bool.false_ne_true), if_neg hm]
      exact Finset.mem_insert_of_mem h

theorem sqliteRun_mem (F : String) (db : SQLiteDB) (ops : List DFOp)
    (h : F ∈ db.seen_urls) : F ∈ (sqliteRun db ops).seen_urls := by
  induction ops generalizing db with
  | nil => exact h
  | cons op ops ih =>
    simp only [sqliteRun, List.foldl_cons]
    exact ih (sqliteStep db op) (sqliteStep_mem F db op h)

theorem fileStep_preserves (st : FileFilterState) (op : DFOp) (hinv : fileInv st)
    (hop : opStripped op) :
    fileInv (fileStep st op) ∧
      ∀ F ∈ st.seen_fingerprints, F ∈ (fileStep st op).seen_fingerprints := by
  obtain ⟨hlines, hsub⟩ := hinv
  cases op with
  | opn =>
    cases hf : st.file with
    | none =>
      simp only [fileStep, FileBasedDupeFilter.openFilter, hf]
      exact ⟨⟨hlines, hsub⟩, fun F hF => hF⟩
    | some lines =>
      rw [hf] at hlines hsub
      simp only [Option.getD_some] at hlines hsub
      simp only [fileStep, FileBasedDupeFilter.openFilter, hf, fileInv, Option.getD_some]
      refine ⟨⟨fun l hl => hlines l hl, fun x hx => ?_⟩, fun F hF => ?_⟩
      · obtain ⟨a, ha, hae⟩ := List.mem_map.mp (List.mem_dedup.mp hx)
        have e2 : x = a := by rw [← hae, hlines a ha]
        rw [e2]
        exact ha
      · apply List.mem_dedup.mpr
        apply List.mem_map.mpr
        have hFl : F ∈ lines := hsub F hF
        exact ⟨F, hFl, hlines F hFl⟩
  | claim fp =>
    by_cases hm : fp ∈ st.seen_fingerprints
    · simp only [fileStep, FileBasedDupeFilter.request_seen, if_pos hm]
      exact ⟨⟨hlines, hsub⟩, fun F hF => hF⟩
    · simp only [fileStep, FileBasedDupeFilter.request_seen, if_neg hm, fileInv]
      refine ⟨⟨fun l hl => ?_, fun x hx => ?_⟩, fun F hF => List.mem_append_left _ hF⟩
      · rcases List.mem_append.mp hl with h1 | h1
        · exact hlines l h1
        · rw [List.mem_singleton.mp h1]
          exact hop
      · rcases List.mem_append.mp hx with h1 | h1
        · exact List.mem_append_left _ (hsub x h1)
        · exact List.mem_append_right _ h1

theorem fileRun_preserves (st : FileFilterState) (ops : List DFOp) (hinv : fileInv st)
    (hops : ∀ op ∈ ops, opStripped op) :
    fileInv (fileRun st ops) ∧
      ∀ F ∈ st.seen_fingerprints, F ∈ (fileRun st ops).seen_fingerprints := by
  induction ops generalizing st with
  | nil => exact ⟨hinv, fun F hF => hF⟩
  | cons op ops ih =>
    have h1 := fileStep_preserves st op hinv (hops op (List.mem_cons_self op ops))
    have h2 := ih (fileStep st op) h1.1 (fun o ho => hops o (List.mem_cons_of_mem _ ho))
    simp only [fileRun, List.foldl_cons]
    exact ⟨h2.1, fun F hF => h2.2 F (h1.2 F hF)⟩

/-- C8: during a session the seen-set only grows: a fingerprint present in the
store stays present after any further sequence of Open and ClaimOrSeen calls
(Clear excluded), for all three backends. For the file backend the state must
satisfy its representation invariant (in-memory set mirrored on disk,
strip-invariant lines) and the claimed fingerprints must be strip-invariant,
both true of the hex fingerprints the filter handles. -/
theorem seen_set_monotone (kp F : String) (store : RedisStore) (db : SQLiteDB)
    (st : FileFilterState) (ops : List DFOp)
    (hr : (kp, F) ∈ store) (hs : F ∈ db.seen_urls)
    (hinv : fileInv st) (hops : ∀ op ∈ ops, opStripped op)
    (hf : F ∈ st.seen_fingerprints) :
    (kp, F) ∈ redisRun kp store ops ∧
    F ∈ (sqliteRun db ops).seen_urls ∧
    F ∈ (fileRun st ops).seen_fingerprints :=
  ⟨redisRun_mem kp F store ops hr, sqliteRun_mem F db ops hs,
    (fileRun_preserves st ops hinv hops).2 F hf⟩

/-- Witness for C8: a concrete session running an Open and a claim for a
second fingerprint over a store already holding fingerprint "a". -/
theorem seen_set_monotone_witness :
    (("p", "a") ∈ ({("p", "a")} : RedisStore)) ∧
    ("a" ∈ (⟨{"a"}⟩ : SQLiteDB).seen_urls) ∧
    fileInv ⟨["a"], some ["a"]⟩ ∧
    (∀ op ∈ [DFOp.opn, DFOp.claim "b"], opStripped op) ∧
    ("a" ∈ (⟨["a"], some ["a"]⟩ : FileFilterState).seen_fingerprints) ∧
    (("p", "a") ∈ redisRun "p" {("p", "a")} [DFOp.opn, DFOp.claim "b"] ∧
      "a" ∈ (sqliteRun ⟨{"a"}⟩ [DFOp.opn, DFOp.claim "b"]).seen_urls ∧
      "a" ∈ (fileRun ⟨["a"], some ["a"]⟩ [DFOp.opn, DFOp.claim "b"]).seen_fingerprints) :=
  ⟨by decide, by decide, by decide, by decide, by decide,
    seen_set_monotone "p" "a" {("p", "a")} ⟨{"a"}⟩ ⟨["a"], some ["a"]⟩
      [DFOp.opn, DFOp.claim "b"] (by decide) (by decide) (by decide) (by decide) (by decide)⟩

theorem string_mk_length (l : List Char) : (String.mk l).length = l.length := rfl

theorem bytesHex_length (bs : List Nat) : (bytesHex bs).length = 2 * bs.length := by
  have key : ∀ l : List Nat,
      (l.flatMap (fun b => [hexDigit (b / 16), hexDigit (b % 16)])).length = 2 * l.length := by
    intro l
    induction l with
    | nil => rfl
    | cons b t ih =>
      rw [List.flatMap_cons, List.length_append, ih]
      simp only [List.length_cons, List.length_nil]
      omega
  rw [bytesHex, string_mk_length]
  exact key bs

/-- C9: the fingerprint is a deterministic function of the request's identity
fields — two requests that agree on the configured identity fields (regardless
of other fields such as headers) get the same fingerprint — and it is rendered
as a fixed-size hex string (20 bytes, 40 hex characters). -/
theorem fingerprint_deterministic (r1 r2 : Request)
    (h : canonicalIdentity r1 = canonicalIdentity r2) :
    get_request_fingerprint r1 = get_request_fingerprint r2 ∧
      (get_request_fingerprint r1).length = 40 := by
  constructor
  · unfold get_request_fingerprint fingerprintBytes
    rw [h]
  · rw [get_request_fingerprint, bytesHex_length]
    simp [fingerprintBytes]

/-- Witness for C9: two requests identical in the identity fields but with
different headers. -/
theorem fingerprint_deterministic_witness :
    canonicalIdentity ⟨"GET", "https://example.edu/a", "", []⟩
      = canonicalIdentity ⟨"GET", "https://example.edu/a", "", [("User-Agent", "curl")]⟩ ∧
    (get_request_fingerprint ⟨"GET", "https://example.edu/a", "", []⟩
        = get_request_fingerprint ⟨"GET", "https://example.edu/a", "", [("User-Agent", "curl")]⟩ ∧
      (get_request_fingerprint ⟨"GET", "https://example.edu/a", "", []⟩).length = 40) :=
  ⟨rfl, fingerprint_deterministic _ _ rfl⟩
